import Mathlib

/-!
Verification of the WalterChecks review pipeline (`qa-bot/review.py`,
`qa-bot/analyzers.py`) against its specification.

Text is modelled as `List Char` (named `Str` below): Python strings compare,
slice and search by code point, exactly as `List Char` does, and all
operations stay kernel-computable.  File names, sizes and subprocess output
are inputs of the modelled functions: reading them is I/O performed by
external collaborators, while every decision the repository's own code makes
about them is modelled faithfully.
-/

/-- Code-point string: the model of a Python `str`. -/
abbrev Str : Type := List Char

/-- The code points of a Lean string literal. -/
def strL (s : String) : Str := s.data

/-- Python `str.strip()`: drop whitespace from both ends. -/
def trimChars (l : Str) : Str :=
  ((l.dropWhile Char.isWhitespace).reverse.dropWhile Char.isWhitespace).reverse

/-- Python `s.split(sep, 1)`: split at the first occurrence of `sep`, returning
`some (before, after)`, or `none` when `sep` does not occur in `s`. -/
def splitOnce (sep : Str) : Str → Option (Str × Str)
  | [] => none
  | c :: rest =>
    if sep <+: (c :: rest) then some ([], (c :: rest).drop sep.length)
    else
      match splitOnce sep rest with
      | some (pre, post) => some (c :: pre, post)
      | none => none

/-- Python `sub in s` (substring containment), as a Bool. -/
def containsSub (sub l : Str) : Bool := decide (sub <:+: l)

/-- Python `s.split(c)` for a one-character separator. -/
def splitAll (c : Char) : Str → List Str
  | [] => [[]]
  | x :: xs =>
    if x = c then [] :: splitAll c xs
    else
      match splitAll c xs with
      | h :: t => (x :: h) :: t
      | [] => [[x]]

/-- Python `e.strip("/")`: drop `/` characters from both ends. -/
def stripSlashes (l : Str) : Str :=
  ((l.dropWhile (· = '/')).reverse.dropWhile (· = '/')).reverse

/-- Decimal digits of a natural number, as Python's `f"{n}"` renders it. -/
def natStr (n : Nat) : Str := (Nat.repr n).data

/-! ## Batch planner (`review.py`, `_batch_groups`) -/

/-- `MAX_FILE_SIZE = 50_000` from `review.py`. -/
def MAX_FILE_SIZE : Nat := 50000

/-- `MAX_CHARS_PER_BATCH = 12_000` from `review.py`. -/
def MAX_CHARS_PER_BATCH : Nat := 12000

/-- `MAX_TOTAL_FILES = 300` from `review.py`. -/
def MAX_TOTAL_FILES : Nat := 300

/-- A discovered file as batching sees it: the dict
`{"path": ..., "content": ..., "size": ...}` built by `discover_files`
(batching reads only `path` and `content`). -/
structure BFile where
  path : Str
  content : Str
deriving DecidableEq

/-- `len(f["content"])` — the character size batching accumulates. -/
def fileSize (f : BFile) : Nat := f.content.length

/-- Summed content size of a batch. -/
def sumSize (b : List BFile) : Nat := (b.map fileSize).sum

/-- One iteration of the inner loop of `_batch_groups` over state
`(batches, batch, sz)`:
```
fsz = len(f["content"])
if sz + fsz > MAX_CHARS_PER_BATCH and batch:
    batches.append(batch); batch, sz = [], 0
if fsz > MAX_CHARS_PER_BATCH:
    if batch:
        batches.append(batch); batch, sz = [], 0
    batches.append([f]); continue
batch.append(f); sz += fsz
``` -/
def batchStep (st : List (List BFile) × List BFile × Nat) (f : BFile) :
    List (List BFile) × List BFile × Nat :=
  let batches := st.1
  let batch := st.2.1
  let sz := st.2.2
  let fsz := fileSize f
  let st2 :=
    if MAX_CHARS_PER_BATCH < sz + fsz ∧ batch ≠ [] then (batches ++ [batch], ([] : List BFile), 0)
    else (batches, batch, sz)
  if MAX_CHARS_PER_BATCH < fsz then
    if st2.2.1 ≠ [] then (st2.1 ++ [st2.2.1] ++ [[f]], [], 0)
    else (st2.1 ++ [[f]], st2.2.1, st2.2.2)
  else (st2.1, st2.2.1 ++ [f], st2.2.2 + fsz)

/-- The body of `_batch_groups` for one `(group name, group files)` entry,
threading the shared `batches` accumulator:
```
if not group_files: continue
batch, sz = [], 0
for f in group_files: ...
if batch: batches.append(batch)
``` -/
def batchGroupFold (batches : List (List BFile)) (g : Str × List BFile) :
    List (List BFile) :=
  if g.2.isEmpty then batches
  else
    let st := g.2.foldl batchStep (batches, ([] : List BFile), 0)
    if st.2.1 ≠ [] then st.1 ++ [st.2.1] else st.1

/-- `_batch_groups(groups)` from `review.py`: pack each category's files, in
order, into batches of cumulative content size bounded by
`MAX_CHARS_PER_BATCH`; a single over-budget file forms its own batch. `groups`
is the insertion-ordered dict of categories. -/
def _batch_groups (groups : List (Str × List BFile)) : List (List BFile) :=
  groups.foldl batchGroupFold []

/-! ## Prior-report truncation (`review.py`, `load_prior_report`) -/

/-- The elision marker inserted by `load_prior_report`. -/
def TRUNC_MARKER : Str :=
  strL "\n\n... [PRIOR REPORT TRUNCATED — middle batches omitted] ...\n\n"

/-- `load_prior_report(path, max_chars)` after the file read succeeded
(the read itself is I/O; `content` is what was read):
```
if len(content) <= max_chars: return content
half = max_chars // 2
return content[:half] + MARKER + content[-half:]
```
`content[-half:]` is the last `min(half, len)` characters, which
`List.drop (length - half)` renders with truncated subtraction. -/
def load_prior_report (content : Str) (max_chars : Nat) : Str :=
  if content.length ≤ max_chars then content
  else
    let half := max_chars / 2
    content.take half ++ TRUNC_MARKER ++ content.drop (content.length - half)

/-! ## Result compressor (`analyzers.py`, `run_phpstan` lines 228-255)

The dedup/collapse block operates on `all_lines`, each line of the form
`"  {location} — {message}"`.  `" — "` below is space, em dash, space. -/

/-- The separator `" — "` used to split a finding line into location and
message. -/
def sepStr : Str := strL " — "

/-- `DEDUP_THRESHOLD = 10` from `run_phpstan`. -/
def DEDUP_THRESHOLD : Nat := 10

/-- The message of a line:
`parts[1] if len(parts) > 1 else line.strip()` for
`parts = line.split(" — ", 1)`. -/
def msgOf (line : Str) : Str :=
  match splitOnce sepStr line with
  | some (_, post) => post
  | none => trimChars line

/-- The location of a line:
`parts[0].strip() if len(parts) > 1 else ""`. -/
def locOf (line : Str) : Str :=
  match splitOnce sepStr line with
  | some (pre, _) => trimChars pre
  | none => []

/-- `error_types[msg]`: how many lines carry message `m`. -/
def countMsg (lines : List Str) (m : Str) : Nat := (lines.map msgOf).count m

/-- Keys of the `Counter`/`defaultdict` in first-seen (insertion) order. -/
def firstSeenAux : List Str → List Str → List Str
  | [], acc => acc.reverse
  | m :: ms, acc =>
    if acc.contains m then firstSeenAux ms acc else firstSeenAux ms (m :: acc)

/-- Distinct messages of the lines, in first-seen order (the insertion order
of `error_types`). -/
def msgKeys (lines : List Str) : List Str := firstSeenAux (lines.map msgOf) []

/-- `error_types.most_common()`: messages sorted by descending count; CPython's
sort is stable, so equal counts keep insertion order, which the stable
`insertionSort` reproduces. -/
def mostCommonKeys (lines : List Str) : List Str :=
  List.insertionSort (fun a b => countMsg lines b ≤ countMsg lines a) (msgKeys lines)

/-- `error_examples[msg]`: the first (up to) 3 locations recorded for `m`. -/
def examplesFor (lines : List Str) (m : Str) : List Str :=
  (((lines.filter fun l => msgOf l == m).map locOf).take 3)

/-- The collapsed line `f"  [{count}x] {msg}"`. -/
def summaryLine (lines : List Str) (m : Str) : Str :=
  strL "  [" ++ natStr (countMsg lines m) ++ strL "x] " ++ m

/-- The example line `f"         e.g. {examples}"` with
`examples = ", ".join(error_examples[msg])`. -/
def egLine (lines : List Str) (m : Str) : Str :=
  strL "         e.g. " ++ List.intercalate (strL ", ") (examplesFor lines m)

/-- The filter the low-count branch applies to every line:
`f" — {msg}" in line or (msg in line and " — " not in line)`. -/
def keepCond (m : Str) (line : Str) : Bool :=
  containsSub (sepStr ++ m) line || (containsSub m line && !containsSub sepStr line)

/-- What `run_phpstan` emits for one entry of `most_common()`:
```
if count > DEDUP_THRESHOLD:
    compact_lines.append(f"  [{count}x] {msg}")
    compact_lines.append(f"         e.g. {examples}")
else:
    for line in all_lines:
        if f" — {msg}" in line or (msg in line and " — " not in line):
            compact_lines.append(line)
``` -/
def emitFor (lines : List Str) (m : Str) : List Str :=
  if DEDUP_THRESHOLD < countMsg lines m then [summaryLine lines m, egLine lines m]
  else lines.filter (keepCond m)

/-- `compact_lines`: the whole dedup/collapse pass of `run_phpstan` over
`all_lines`, one `emitFor` block per `most_common()` entry. -/
def compressLines (lines : List Str) : List Str :=
  ((mostCommonKeys lines).map (emitFor lines)).flatten

/-! ## Analyzer results and the orchestrator (`analyzers.py`) -/

/-- `AnalyzerResult` dataclass from `analyzers.py`. -/
structure AnalyzerResult where
  tool : Str
  success : Bool
  findings_count : Nat
  output : Str
  error : Str
  summary : Str
deriving DecidableEq

/-- The `except` arm of `_run_parallel`'s collection loop:
`AnalyzerResult(tool=label, success=False, error=str(e))` (all other fields
keep their dataclass defaults). -/
def exceptionResult (label : Str) (e : Str) : AnalyzerResult :=
  { tool := label, success := false, findings_count := 0, output := []
    error := e, summary := [] }

/-- One completed future of `_run_parallel`: a task's label together with its
outcome — `Except.ok` a result, `Except.error` a raised exception's text. -/
def collectResult (j : Str × Except Str AnalyzerResult) : AnalyzerResult :=
  match j.2 with
  | Except.ok r => r
  | Except.error e => exceptionResult j.1 e

/-- `_run_parallel(tasks)` from `analyzers.py`, as a function of `completed`—
the `(label, outcome)` sequence in whatever order `as_completed` yields the
futures.  Every completion appends one result; then
`results.sort(key=lambda r: r.tool)` — CPython's stable ascending sort, which
the stable `insertionSort` over code-point order reproduces. -/
def _run_parallel (completed : List (Str × Except Str AnalyzerResult)) :
    List AnalyzerResult :=
  List.insertionSort (fun a b : AnalyzerResult => a.tool ≤ b.tool)
    (completed.map collectResult)

/-! ## `run_phpstan` (`analyzers.py`)

The subprocess invocation and `json.loads` are external collaborators:
`stdout`/`stderr` are the captured process output and `parsed` is the result
of `json.loads(stdout)` (`none` = `JSONDecodeError`/`KeyError`).  Paths in the
parsed data are taken after `os.path.relpath` (an OS call). -/

/-- One entry of `fd.get("messages", [])` in PHPStan's JSON. -/
structure PhpstanMsg where
  line : Nat
  message : Str

/-- The parsed PHPStan JSON document: totals, per-file messages, and the
top-level `errors` list. -/
structure PhpstanData where
  file_errors : Nat
  errors_total : Nat
  files : List (Str × List PhpstanMsg)
  general_errors : List Str

/-- `all_lines` of `run_phpstan`: `f"  {rp}:{m.get('line', '?')} — {m.get('message', '')}"`
per message, then `f"  [General] {e}"` per top-level error. -/
def phpstanAllLines (data : PhpstanData) : List Str :=
  (data.files.map fun fe =>
    fe.2.map fun m => strL "  " ++ fe.1 ++ strL ":" ++ natStr m.line ++ sepStr ++ m.message).flatten
  ++ data.general_errors.map fun e => strL "  [General] " ++ e

/-- `run_phpstan(repo, level)` from `analyzers.py`, over its external inputs:
`bin` = `_find_bin("phpstan", repo)`, `stdout`/`stderr` = the process output,
`parsed` = `json.loads(stdout)` when it parsed.  Mirrors the source branch by
branch: missing binary; no JSON on stdout; unparseable JSON; and the parsed
path with the dedup/collapse pass (`compressLines`). -/
def run_phpstan (level : Nat) (bin : Option Str) (stdout stderr : Str)
    (parsed : Option PhpstanData) : AnalyzerResult :=
  let name := strL "PHPStan (Level " ++ natStr level ++ strL ")"
  match bin with
  | none =>
    { tool := name, success := false, findings_count := 0, output := []
      error := strL "Not installed", summary := [] }
  | some _ =>
    if stdout = [] ∨ (trimChars stdout).head? ≠ some '{' then
      let em0 := if stderr ≠ [] then stderr
        else if stdout ≠ [] then stdout else strL "Unknown error"
      let em := (trimChars em0).take 500
      { tool := name, success := false, findings_count := 0, output := em
        error := strL "PHPStan error (check config): " ++ em.take 100, summary := [] }
    else
      match parsed with
      | none =>
        { tool := name, success := false, findings_count := 0
          output := if stdout ≠ [] then stdout else stderr
          error := strL "PHPStan returned invalid JSON", summary := [] }
      | some data =>
        let n := data.file_errors + data.errors_total
        let all_lines := phpstanAllLines data
        let compact := compressLines all_lines
        let output :=
          if compact ≠ [] then List.intercalate (strL "\n") compact
          else strL "No issues found."
        { tool := name, success := true, findings_count := n
          output := if output ≠ [] then output else strL "No issues found."
          error := []
          summary := natStr n ++ strL " issue(s) at level " ++ natStr level ++
            strL "/9 (" ++ natStr (msgKeys all_lines).length ++
            strL " unique error types)." }

/-! ## File discovery (`review.py`, `discover_files`) -/

/-- A `ReviewableFile`: the dict `{"path": rp, "content": content, "size": sz}`
appended by `discover_files`. -/
structure RFile where
  path : Str
  content : Str
  size : Nat
deriving DecidableEq

/-- The per-run profile fields `discover_files` reads. -/
structure DProfile where
  file_extensions : List Str
  skip_dirs : List Str
  skip_files : List Str

/-- The filesystem as `discover_files` consults it: `os.path.getsize` (`none`
= `OSError`) and the tolerant `open(...).read()` (`none` = any read failure). -/
structure FSys where
  getsize : Str → Option Nat
  readText : Str → Option Str

/-- `os.path.basename` for `/`-separated relative paths. -/
def basenameOf (p : Str) : Str := ((p.reverse.takeWhile (· ≠ '/')).reverse)

/-- `should_skip_path(rel_path)` from `discover_files`: a non-final path
segment in `skip_dirs` or starting with a dot, or an extra-exclude prefix
match (`rel_path.startswith(exc) or (os.sep + exc) in rel_path`). -/
def should_skip_path (skip_dirs excludes : List Str) (rp : Str) : Bool :=
  ((splitAll '/' rp).dropLast.any fun part =>
      skip_dirs.contains part || decide (strL "." <+: part))
  || excludes.any fun exc =>
      decide (exc <+: rp) || containsSub ('/' :: exc) rp

/-- The shared per-candidate filter-and-read chain of `discover_files` (both
branches run it verbatim): skip by exact filename, by suffix set, by
`should_skip_path`, by the PR-mode allow-list; then the size gate
`sz > MAX_FILE_SIZE or sz == 0` and the tolerant read. -/
def processCandidate (fsys : FSys) (profile : DProfile) (excludes : List Str)
    (file_filter : Option (List Str)) (repo : Str) (rp : Str) : Option RFile :=
  let fn := basenameOf rp
  if profile.skip_files.contains fn then none
  else if ¬ profile.file_extensions.any (fun e => e <:+ fn) then none
  else if should_skip_path profile.skip_dirs excludes rp then none
  else if (match file_filter with
           | some ff => !ff.contains rp
           | none => false) then none
  else
    match fsys.getsize (repo ++ '/' :: rp) with
    | none => none
    | some sz =>
      if MAX_FILE_SIZE < sz ∨ sz = 0 then none
      else
        match fsys.readText (repo ++ '/' :: rp) with
        | none => none
        | some content => some { path := rp, content := content, size := sz }

/-- `discover_files(repo, profile, file_filter, extra_excludes)`.  `tracked` is
`git ls-files` output when git succeeded (`sorted(set(...))` with `""`
discarded); otherwise `walkCandidates` is the relative-path enumeration the
pruned `os.walk` produced (directory walking is OS I/O; every per-file
decision is `processCandidate`).  Ends with `files[:MAX_TOTAL_FILES]`. -/
def discover_files (fsys : FSys) (profile : DProfile)
    (file_filter : Option (List Str)) (extra_excludes : List Str) (repo : Str)
    (tracked : Option (List Str)) (walkCandidates : List Str) : List RFile :=
  let excludes := extra_excludes.map stripSlashes
  let files :=
    match tracked with
    | some ts =>
      (List.insertionSort (fun a b : Str => a ≤ b)
          ((ts.filter (· ≠ [])).eraseDups)).filterMap
        (processCandidate fsys profile excludes file_filter repo)
    | none =>
      walkCandidates.filterMap (processCandidate fsys profile excludes file_filter repo)
  files.take MAX_TOTAL_FILES

/-! ## Review payload construction (`review.py`, `review_batch`) -/

/-- The prior-report part of the `review_batch` payload (appended when
`prior_report_ctx` is non-empty). -/
def priorPart (prior : Str) : Str :=
  strL "PRIOR QA REPORT (your previous findings for this codebase):\n\nThe code changes you are reviewing were made IN RESPONSE to this report.\nFor each of your prior findings, determine whether the changes address it.\nFlag any prior findings that were NOT addressed.\nAlso flag any NEW issues introduced by the changes.\n\n"
  ++ prior ++ strL "\n\n---\n"

/-- The static-analysis part (appended when `analysis_ctx` is non-empty). -/
def analysisPart (analysis : Str) : Str :=
  strL "STATIC ANALYSIS RESULTS:\n\n" ++ analysis ++ strL "\n\n---\n"

/-- The diff part: `f"GIT DIFF (the changes under review):\n\n```diff\n{diff_ctx[:6000]}\n```\n\n---\n"`. -/
def diffPart (diff : Str) : Str :=
  strL "GIT DIFF (the changes under review):\n\n```diff\n" ++ diff.take 6000
  ++ strL "\n```\n\n---\n"

/-- The follow-up instruction block of `review_batch`. -/
def followupInstr : Str :=
  strL "Review the code below. This is a FOLLOW-UP review. The developer was given your prior report and filed a PR to address your findings. Your job:\n1. For each prior CRITICAL/WARNING finding: was it fixed? Partially fixed? Ignored?\n2. Are there any NEW issues introduced by these changes?\n3. Is the fix correct, or did it introduce a different problem?\n4. Any prior findings that are no longer relevant (code was removed, etc.)?\n\n"

/-- The first-review instruction block of `review_batch`. -/
def normalInstr : Str :=
  strL "Review the code below. Reference tool findings where relevant. Confirm real issues, dismiss false positives, find issues tools missed.\n\n"

/-- `parts` of `review_batch(client, sys_prompt, batch, model, analysis_ctx,
diff_ctx, prior_report_ctx)`: the user-message segments, in source order;
`"\n".join(parts)` is sent to the engine.  Python's `if ctx:` tests
non-emptiness. -/
def review_parts (prior analysis diff : Str) (batch : List RFile) : List Str :=
  (if prior ≠ [] then [priorPart prior] else [])
  ++ (if analysis ≠ [] then [analysisPart analysis] else [])
  ++ (if diff ≠ [] then [diffPart diff] else [])
  ++ [if prior ≠ [] then followupInstr else normalInstr]
  ++ (batch.map fun f => [strL "--- FILE: " ++ f.path ++ strL " ---", f.content, []]).flatten

/-! ## `main`'s control flow (`review.py`, `main`)

The claims about startup-failure ordering concern which pipeline stages run
and in what order, so `main` is embedded as the trace of stage events it
performs.  Each event corresponds to one statement block of `main`, in source
order; `sys.exit` ends the trace. -/

/-- One pipeline stage of `main`. -/
inductive MainEvent where
  | loadConfig
  | loadPriorReport
  | runTools
  | toolsOnlyReport
  | analyzePR
  | exitNoChanges
  | scanFiles
  | exitNoFiles
  | batchFiles
  | detectModel
  | fatalNoModel
  | submitBatch (i : Nat)
  | saveReport
deriving DecidableEq

/-- The stages after `detect_model(client)`:
`if model_name == "unknown": sys.exit(1)`, else the sequential review loop
over the batches and the final report save. -/
def eventsAfterDetect (modelDiscoverable : Bool) (numBatches : Nat) :
    List MainEvent :=
  if modelDiscoverable then
    (List.range numBatches).map MainEvent.submitBatch ++ [MainEvent.saveReport]
  else [MainEvent.fatalNoModel]

/-- The stages from `discover_files` on: scan, `if not files: sys.exit(0)`,
batching, model detection. -/
def eventsFromScan (filesFound modelDiscoverable : Bool) (numBatches : Nat) :
    List MainEvent :=
  [MainEvent.scanFiles]
  ++ if filesFound then
      [MainEvent.batchFiles, MainEvent.detectModel]
      ++ eventsAfterDetect modelDiscoverable numBatches
    else [MainEvent.exitNoFiles]

/-- The stage trace of `main` (after argument/path validation), keyed by the
run's observable circumstances: config is loaded, then the prior report, then
the tools; `--tools-only` saves and exits; in `pr` mode the PR is analyzed and
an empty change set exits; then files are scanned, batched, and only then is
the model detected — a missing model is fatal there, otherwise every batch is
submitted in order and the report saved. -/
def mainEvents (modePr toolsOnly changedNonempty filesFound modelDiscoverable : Bool)
    (numBatches : Nat) : List MainEvent :=
  [MainEvent.loadConfig, MainEvent.loadPriorReport, MainEvent.runTools]
  ++ if toolsOnly then [MainEvent.toolsOnlyReport]
    else if modePr then
      [MainEvent.analyzePR]
      ++ if changedNonempty then eventsFromScan filesFound modelDiscoverable numBatches
        else [MainEvent.exitNoChanges]
    else eventsFromScan filesFound modelDiscoverable numBatches

/-! ## Concrete instances used by counterexamples and witnesses -/

/-- A batch is well formed when it is non-empty and either fits the budget or
is the singleton of an over-budget file. -/
def GoodBatch (b : List BFile) : Prop :=
  b ≠ [] ∧ (sumSize b ≤ MAX_CHARS_PER_BATCH ∨
    ∃ f, b = [f] ∧ MAX_CHARS_PER_BATCH < fileSize f)

/-- A 13000-character file: alone it exceeds the 12000-character budget. -/
def c1big1 : BFile := { path := strL "a.php", content := List.replicate 13000 'x' }

/-- A second over-budget file (12500 characters) in the same category. -/
def c1big2 : BFile := { path := strL "b.php", content := List.replicate 12500 'y' }

/-- A small file for the C1 witness. -/
def c1wf : BFile := { path := strL "w.php", content := strL "<?php\n" }

/-- A one-category grouping holding only the small witness file. -/
def c1wGroups : List (Str × List BFile) := [(strL "all", [c1wf])]

/-- First of four 3000-character files of one category: the C2 boundary
scenario. -/
def c2f1 : BFile := { path := strL "one.php", content := List.replicate 3000 'a' }

/-- Second 3000-character file of the C2 scenario. -/
def c2f2 : BFile := { path := strL "two.php", content := List.replicate 3000 'b' }

/-- Third 3000-character file of the C2 scenario. -/
def c2f3 : BFile := { path := strL "three.php", content := List.replicate 3000 'c' }

/-- Fourth 3000-character file of the C2 scenario. -/
def c2f4 : BFile := { path := strL "four.php", content := List.replicate 3000 'd' }

/-- A small file for the C2 witness. -/
def c2wit : BFile := { path := strL "wit.php", content := strL "echo 1;" }

/-- Finding lines where the message `a` of one line is a ` — `-suffix of the
eleven lines of message `z — a`: input of the C3 counterexample. -/
def c3badLines : List Str :=
  [ strL "  loc0 — a",
    strL "  l1 — z — a", strL "  l2 — z — a", strL "  l3 — z — a",
    strL "  l4 — z — a", strL "  l5 — z — a", strL "  l6 — z — a",
    strL "  l7 — z — a", strL "  l8 — z — a", strL "  l9 — z — a",
    strL "  l10 — z — a", strL "  l11 — z — a" ]

/-- Eleven lines of message `flood` and one of message `ping`, with no
cross-matching messages: input of the C3 witness. -/
def c3okLines : List Str :=
  [ strL "  k1 — flood", strL "  k2 — flood", strL "  k3 — flood",
    strL "  k4 — flood", strL "  k5 — flood", strL "  k6 — flood",
    strL "  k7 — flood", strL "  k8 — flood", strL "  k9 — flood",
    strL "  k10 — flood", strL "  k11 — flood", strL "  q — ping" ]

/-- Eleven lines of one message and two of another: compressing collapses the
first message, and compressing again reorders the output (kept lines of count
2 move ahead of the count-1 summary lines). -/
def c8twoLines : List Str :=
  [ strL "  f1 — boom", strL "  f2 — boom", strL "  f3 — boom",
    strL "  f4 — boom", strL "  f5 — boom", strL "  f6 — boom",
    strL "  f7 — boom", strL "  f8 — boom", strL "  f9 — boom",
    strL "  f10 — boom", strL "  f11 — boom",
    strL "  p1 — zap", strL "  p2 — zap" ]

/-- Eleven lines of a single message: its collapsed output re-compresses to
itself. -/
def c8oneLines : List Str :=
  [ strL "  f1 — boom", strL "  f2 — boom", strL "  f3 — boom",
    strL "  f4 — boom", strL "  f5 — boom", strL "  f6 — boom",
    strL "  f7 — boom", strL "  f8 — boom", strL "  f9 — boom",
    strL "  f10 — boom", strL "  f11 — boom" ]

/-- A completed task whose adapter result is PHPStan's missing-binary result:
submitting the same task twice is a task list on which the suite holds two
entries of the same tool name. -/
def c6dupJob : Str × Except Str AnalyzerResult :=
  (strL "PHPStan", Except.ok (run_phpstan 5 none [] [] none))

/-- First task of the C6 witness: ESLint raised an exception. -/
def c6ja : Str × Except Str AnalyzerResult :=
  (strL "ESLint", Except.error (strL "boom"))

/-- Second task of the C6 witness: PHPStan's binary was absent. -/
def c6jb : Str × Except Str AnalyzerResult :=
  (strL "PHPStan", Except.ok (run_phpstan 5 none [] [] none))

/-- A one-file filesystem for the C9 witness. -/
def c9fsys : FSys :=
  { getsize := fun p => if p = strL "repo/a.php" then some 6 else none
    readText := fun p => if p = strL "repo/a.php" then some (strL "<?php\n") else none }

/-- A minimal profile for the C9 witness. -/
def c9profile : DProfile :=
  { file_extensions := [strL ".php"], skip_dirs := [strL "vendor"], skip_files := [] }

/-- The file the C9 witness discovers. -/
def c9rf : RFile := { path := strL "a.php", content := strL "<?php\n", size := 6 }

/-! ## Helper lemmas -/

/-- Within the budget, `batchStep` only extends the current batch. -/
theorem batchStep_within (bs : List (List BFile)) (batch : List BFile) (sz : Nat)
    (f : BFile) (h : sz + fileSize f ≤ MAX_CHARS_PER_BATCH) :
    batchStep (bs, batch, sz) f = (bs, batch ++ [f], sz + fileSize f) := by
  have h1 : ¬ MAX_CHARS_PER_BATCH < sz + fileSize f := by omega
  have h2 : ¬ MAX_CHARS_PER_BATCH < fileSize f := by omega
  simp [batchStep, h1, h2]

/-- Four files whose sizes sum within the budget pack into a single batch. -/
theorem packFour (f1 f2 f3 f4 : BFile) (g : Str)
    (h : fileSize f1 + fileSize f2 + fileSize f3 + fileSize f4 ≤ MAX_CHARS_PER_BATCH) :
    _batch_groups [(g, [f1, f2, f3, f4])] = [[f1, f2, f3, f4]] := by
  have n1 : ¬ MAX_CHARS_PER_BATCH < fileSize f1 := by omega
  have n2 : ¬ MAX_CHARS_PER_BATCH < fileSize f2 := by omega
  have n3 : ¬ MAX_CHARS_PER_BATCH < fileSize f3 := by omega
  have n4 : ¬ MAX_CHARS_PER_BATCH < fileSize f4 := by omega
  have m2 : ¬ MAX_CHARS_PER_BATCH < fileSize f1 + fileSize f2 := by omega
  have m3 : ¬ MAX_CHARS_PER_BATCH < fileSize f1 + fileSize f2 + fileSize f3 := by omega
  have m4 : ¬ MAX_CHARS_PER_BATCH < fileSize f1 + fileSize f2 + fileSize f3 + fileSize f4 := by
    omega
  simp [_batch_groups, batchGroupFold, batchStep, List.foldl, n1, n2, n3, n4, m2, m3, m4]

/-- Two files, each alone over the budget, become two singleton batches. -/
theorem packTwoOversized (f1 f2 : BFile) (g : Str)
    (h1 : MAX_CHARS_PER_BATCH < fileSize f1) (h2 : MAX_CHARS_PER_BATCH < fileSize f2) :
    _batch_groups [(g, [f1, f2])] = [[f1], [f2]] := by
  simp [_batch_groups, batchGroupFold, batchStep, List.foldl, h1, h2,
    Nat.lt_of_lt_of_le h1 (Nat.le_add_left _ _), Nat.lt_of_lt_of_le h2 (Nat.le_add_left _ _)]

/-- The size of the C1 counterexample's first file. -/
theorem c1big1_size : fileSize c1big1 = 13000 := by
  simp only [fileSize, c1big1, List.length_replicate]

/-- The size of the C1 counterexample's second file. -/
theorem c1big2_size : fileSize c1big2 = 12500 := by
  simp only [fileSize, c1big2, List.length_replicate]

/-! ## The claims -/

/-- C2: the batch planner starts a new batch only when adding the next file
would make the cumulative size strictly exceed the budget (while it fits,
`batchStep` only extends the current batch), so four 3000-character files of
one category under the 12000-character budget pack into exactly one batch of
four files. -/
theorem c2_strict_boundary_packing :
    (∀ (bs : List (List BFile)) (batch : List BFile) (sz : Nat) (f : BFile),
        sz + fileSize f ≤ MAX_CHARS_PER_BATCH →
        batchStep (bs, batch, sz) f = (bs, batch ++ [f], sz + fileSize f)) ∧
    _batch_groups [(strL "all", [c2f1, c2f2, c2f3, c2f4])] = [[c2f1, c2f2, c2f3, c2f4]] := by
  constructor
  · exact batchStep_within
  · apply packFour
    have e1 : fileSize c2f1 = 3000 := by simp only [fileSize, c2f1, List.length_replicate]
    have e2 : fileSize c2f2 = 3000 := by simp only [fileSize, c2f2, List.length_replicate]
    have e3 : fileSize c2f3 = 3000 := by simp only [fileSize, c2f3, List.length_replicate]
    have e4 : fileSize c2f4 = 3000 := by simp only [fileSize, c2f4, List.length_replicate]
    rw [e1, e2, e3, e4]
    norm_num [MAX_CHARS_PER_BATCH]

/-- Witness for C2: a concrete within-budget step extends the batch in place. -/
theorem c2_strict_boundary_packing_witness :
    batchStep ([], [], 0) c2wit = ([], [c2wit], 0 + fileSize c2wit) :=
  c2_strict_boundary_packing.1 [] [] 0 c2wit (by decide)

/-- C4: prior-report truncation is round-trip safe — content within the
15000-character budget is returned unchanged; longer content becomes exactly
the first 7500 characters, the elision marker, and the last 7500 characters,
of total length `15000 + len(marker)`, with head and tail matching the
original. -/
theorem c4_truncation_roundtrip (content : Str) :
    (content.length ≤ 15000 → load_prior_report content 15000 = content) ∧
    (15000 < content.length →
      load_prior_report content 15000 =
        content.take 7500 ++ TRUNC_MARKER ++ content.drop (content.length - 7500) ∧
      (load_prior_report content 15000).length = 15000 + TRUNC_MARKER.length ∧
      (load_prior_report content 15000).take 7500 = content.take 7500 ∧
      (load_prior_report content 15000).drop (7500 + TRUNC_MARKER.length) =
        content.drop (content.length - 7500)) := by
  constructor
  · intro h
    simp [load_prior_report, h]
  · intro h
    have hn : ¬ content.length ≤ 15000 := by omega
    have heq : load_prior_report content 15000 =
        content.take 7500 ++ TRUNC_MARKER ++ content.drop (content.length - 7500) := by
      simp only [load_prior_report, if_neg hn]
    have hlenT : (content.take 7500).length = 7500 := by
      rw [List.length_take]
      omega
    have hlenD : (content.drop (content.length - 7500)).length = 7500 := by
      rw [List.length_drop]
      omega
    refine ⟨heq, ?_, ?_, ?_⟩
    · rw [heq]
      simp only [List.length_append, hlenT, hlenD]
      omega
    · have h75 : (7500 : Nat) ≤ (content.take 7500 ++ TRUNC_MARKER).length := by
        rw [List.length_append, hlenT]
        omega
      rw [heq, List.take_append_of_le_length h75,
        List.take_append_of_le_length (le_of_eq hlenT.symm), List.take_take]
      norm_num
    · rw [heq]
      have hlen2 : (content.take 7500 ++ TRUNC_MARKER).length = 7500 + TRUNC_MARKER.length := by
        rw [List.length_append, hlenT]
      rw [← hlen2, List.drop_left]

/-- Witness for C4: 40000 characters truncate to length `15000 + len(marker)`. -/
theorem c4_truncation_roundtrip_witness :
    (load_prior_report (List.replicate 40000 'x') 15000).length = 15000 + TRUNC_MARKER.length :=
  ((c4_truncation_roundtrip (List.replicate 40000 'x')).2
    (by simp only [List.length_replicate]; norm_num)).2.1

/-- Counterexample for C5: with no model discoverable (repo mode, tools and
files present), `main`'s trace still scans files and builds batches, and only
then hits the fatal model-detection exit — scanning precedes the abort,
contradicting "aborts before file scanning and batching begin". -/
theorem c5_counterexample :
    MainEvent.scanFiles ∈ mainEvents false false true true false 0 ∧
    MainEvent.batchFiles ∈ mainEvents false false true true false 0 ∧
    MainEvent.fatalNoModel ∈ mainEvents false false true true false 0 ∧
    (mainEvents false false true true false 0).indexOf MainEvent.scanFiles <
      (mainEvents false false true true false 0).indexOf MainEvent.fatalNoModel := by
  decide

/-- C5 (amended): when no completion-engine model is discoverable, the run
aborts fatally before any batch is submitted — scanning and batching have
already run by then, but no `submitBatch` event ever occurs, and in any run
that reaches model detection the fatal exit occurs. -/
theorem c5_no_submit_without_model (modePr toolsOnly changedNonempty filesFound : Bool)
    (numBatches : Nat) :
    (∀ i, MainEvent.submitBatch i ∉
      mainEvents modePr toolsOnly changedNonempty filesFound false numBatches) ∧
    (toolsOnly = false → filesFound = true → (modePr = false ∨ changedNonempty = true) →
      MainEvent.fatalNoModel ∈
        mainEvents modePr toolsOnly changedNonempty filesFound false numBatches) := by
  constructor
  · intro i
    cases modePr <;> cases toolsOnly <;> cases changedNonempty <;> cases filesFound <;>
      simp [mainEvents, eventsFromScan, eventsAfterDetect]
  · intro ht hf hm
    subst ht
    subst hf
    rcases hm with hm | hm
    · subst hm
      cases changedNonempty <;> simp [mainEvents, eventsFromScan, eventsAfterDetect]
    · subst hm
      cases modePr <;> simp [mainEvents, eventsFromScan, eventsAfterDetect]

/-- Witness for C5: a concrete undiscoverable-model run submits no batch and
aborts fatally. -/
theorem c5_no_submit_without_model_witness :
    MainEvent.submitBatch 0 ∉ mainEvents false false true true false 3 ∧
    MainEvent.fatalNoModel ∈ mainEvents false false true true false 3 :=
  ⟨(c5_no_submit_without_model false false true true 3).1 0,
   (c5_no_submit_without_model false false true true 3).2 rfl rfl (Or.inl rfl)⟩

/-- C7: with the tool binary absent, `run_phpstan`'s result has
`success = false`, `findings_count = 0` and a non-empty error string; and the
orchestrator returns exactly one `AnalyzerResult` per completed task, so no
single adapter failure removes another task's result. -/
theorem c7_missing_binary_totality :
    (∀ (level : Nat) (stdout stderr : Str) (parsed : Option PhpstanData),
      (run_phpstan level none stdout stderr parsed).success = false ∧
      (run_phpstan level none stdout stderr parsed).findings_count = 0 ∧
      (run_phpstan level none stdout stderr parsed).error ≠ []) ∧
    (∀ completed : List (Str × Except Str AnalyzerResult),
      (_run_parallel completed).length = completed.length) := by
  constructor
  · intro level stdout stderr parsed
    refine ⟨rfl, rfl, ?_⟩
    show strL "Not installed" ≠ []
    decide
  · intro completed
    have hp := List.perm_insertionSort
      (fun a b : AnalyzerResult => a.tool ≤ b.tool) (completed.map collectResult)
    rw [_run_parallel, hp.length_eq, List.length_map]

/-- C10: only the first 6000 characters of the diff text reach the payload:
the payload built from `diff` equals the payload built from `diff[:6000]`
(so the remainder is silently dropped, with no elision marker), and when a
diff is present its segment is the wrapper around exactly `diff[:6000]`. -/
theorem c10_diff_truncation (prior analysis diff : Str) (batch : List RFile) :
    review_parts prior analysis diff batch =
      review_parts prior analysis (diff.take 6000) batch ∧
    (diff ≠ [] →
      diffPart diff ∈ review_parts prior analysis diff batch ∧
      diffPart diff = strL "GIT DIFF (the changes under review):\n\n```diff\n"
        ++ diff.take 6000 ++ strL "\n```\n\n---\n") := by
  have htake : (diff.take 6000).take 6000 = diff.take 6000 := by
    rw [List.take_take]
    norm_num
  have hpart : diffPart (diff.take 6000) = diffPart diff := by
    rw [diffPart, diffPart, htake]
  constructor
  · by_cases hd : diff = []
    · subst hd
      rfl
    · have hd2 : diff.take 6000 ≠ [] := by
        rw [Ne, List.take_eq_nil_iff]
        simp [hd]
      simp [review_parts, hd, hd2, hpart]
  · intro hd
    refine ⟨?_, rfl⟩
    simp only [review_parts, List.mem_append, List.mem_singleton]
    by_cases hp : prior = [] <;> by_cases ha : analysis = [] <;> simp [hp, ha, hd]

/-- Witness for C10: a concrete non-empty diff's wrapped segment is in the
payload. -/
theorem c10_diff_truncation_witness :
    diffPart (strL "- old\n+ new") ∈ review_parts [] [] (strL "- old\n+ new") [] ∧
    diffPart (strL "- old\n+ new") = strL "GIT DIFF (the changes under review):\n\n```diff\n"
      ++ (strL "- old\n+ new").take 6000 ++ strL "\n```\n\n---\n" :=
  (c10_diff_truncation [] [] (strL "- old\n+ new") []).2 (by decide)

/-- Counterexample for C6: the same adapter submitted under two tasks yields a
suite with two entries of the same tool name, so "no two entries with the same
tool name" does not hold for every task list. -/
theorem c6_counterexample :
    ¬ ((_run_parallel [c6dupJob, c6dupJob]).map (fun r => r.tool)).Nodup := by
  decide

/-- C6 (amended): for every task list and completion order the suite is sorted
by tool name; and it has no two entries of the same tool name provided the
tasks produce pairwise-distinct tool names (as every suite runner in the
program does) — duplicate-producing task lists are the exception the
counterexample exhibits. -/
theorem c6_sorted_results (jobs completed : List (Str × Except Str AnalyzerResult))
    (hperm : completed.Perm jobs) :
    List.Sorted (fun a b : AnalyzerResult => a.tool ≤ b.tool) (_run_parallel completed) ∧
    ((jobs.map fun j => (collectResult j).tool).Nodup →
      ((_run_parallel completed).map (fun r => r.tool)).Nodup) := by
  constructor
  · haveI h1 : IsTotal AnalyzerResult (fun a b => a.tool ≤ b.tool) :=
      ⟨fun a b => le_total a.tool b.tool⟩
    haveI h2 : IsTrans AnalyzerResult (fun a b => a.tool ≤ b.tool) :=
      ⟨fun _ _ _ hab hbc => le_trans hab hbc⟩
    exact List.sorted_insertionSort _ _
  · intro hnd
    have hp : (_run_parallel completed).Perm (completed.map collectResult) :=
      List.perm_insertionSort _ _
    have hmap : ((_run_parallel completed).map (fun r => r.tool)).Perm
        (jobs.map fun j => (collectResult j).tool) := by
      have := (hp.map (fun r : AnalyzerResult => r.tool)).trans
        ((hperm.map collectResult).map (fun r : AnalyzerResult => r.tool))
      simpa [List.map_map, Function.comp] using this
    exact hmap.nodup_iff.mpr hnd

/-- Witness for C6: two distinct tasks, completed in swapped order, give a
suite sorted by tool name with pairwise-distinct names. -/
theorem c6_sorted_results_witness :
    List.Sorted (fun a b : AnalyzerResult => a.tool ≤ b.tool) (_run_parallel [c6jb, c6ja]) ∧
    ((_run_parallel [c6jb, c6ja]).map (fun r => r.tool)).Nodup :=
  ⟨(c6_sorted_results [c6ja, c6jb] [c6jb, c6ja] (List.Perm.swap c6ja c6jb [])).1,
   (c6_sorted_results [c6ja, c6jb] [c6jb, c6ja] (List.Perm.swap c6ja c6jb [])).2 (by decide)⟩

/-- Every file the shared per-candidate chain accepts has positive size within
the cap. -/
theorem processCandidate_size (fsys : FSys) (profile : DProfile) (excludes : List Str)
    (file_filter : Option (List Str)) (repo rp : Str) (f : RFile)
    (h : processCandidate fsys profile excludes file_filter repo rp = some f) :
    0 < f.size ∧ f.size ≤ MAX_FILE_SIZE := by
  simp only [processCandidate.eq_def] at h
  repeat' split at h
  all_goals try exact Option.noConfusion h
  all_goals simp only [Option.some.injEq] at h
  all_goals subst h
  all_goals dsimp only
  all_goals omega

/-- C9: every `ReviewableFile` produced by discovery has
`0 < size ≤ MAX_FILE_SIZE`, and at most `MAX_TOTAL_FILES` files are returned —
in the git-aware path and in the directory-walk fallback alike (`tracked`
selects the branch). -/
theorem c9_discovery_bounds (fsys : FSys) (profile : DProfile)
    (file_filter : Option (List Str)) (extra_excludes : List Str) (repo : Str)
    (tracked : Option (List Str)) (walkCandidates : List Str) :
    (∀ f ∈ discover_files fsys profile file_filter extra_excludes repo tracked walkCandidates,
      0 < f.size ∧ f.size ≤ MAX_FILE_SIZE) ∧
    (discover_files fsys profile file_filter extra_excludes repo tracked walkCandidates).length
      ≤ MAX_TOTAL_FILES := by
  constructor
  · intro f hf
    rw [discover_files.eq_def] at hf
    have hf2 := List.take_subset _ _ hf
    cases tracked with
    | none =>
      simp only at hf2
      obtain ⟨rp, _, hpc0⟩ := List.mem_filterMap.mp hf2
      exact processCandidate_size _ _ _ _ _ _ _ hpc0
    | some ts =>
      simp only at hf2
      obtain ⟨rp, _, hpc⟩ := List.mem_filterMap.mp hf2
      exact processCandidate_size _ _ _ _ _ _ _ hpc
  · rw [discover_files.eq_def]
    exact List.length_take_le _ _

/-- Witness for C9: the one discovered file of a concrete filesystem has
positive size within the cap. -/
theorem c9_discovery_bounds_witness :
    0 < c9rf.size ∧ c9rf.size ≤ MAX_FILE_SIZE :=
  (c9_discovery_bounds c9fsys c9profile none [] (strL "repo") none [strL "a.php"]).1
    c9rf (by decide)

/-- Summed size distributes over batch concatenation. -/
theorem sumSize_append (a b : List BFile) : sumSize (a ++ b) = sumSize a + sumSize b := by
  simp [sumSize]

/-- Invariant of the inner packing loop of `_batch_groups`: completed batches
satisfy `Q`, the running size equals the running batch's summed size and stays
within the budget, and the running batch's files satisfy `S`. -/
theorem foldl_batchStep_inv (S : BFile → Prop) (Q : List BFile → Prop)
    (hQnew : ∀ b, GoodBatch b → (∀ f ∈ b, S f) → Q b) :
    ∀ (gf : List BFile) (bs : List (List BFile)) (batch : List BFile) (sz : Nat),
      sz = sumSize batch → sumSize batch ≤ MAX_CHARS_PER_BATCH →
      (∀ b ∈ bs, Q b) → (∀ f ∈ batch, S f) → (∀ f ∈ gf, S f) →
      (∀ b ∈ (gf.foldl batchStep (bs, batch, sz)).1, Q b) ∧
      (gf.foldl batchStep (bs, batch, sz)).2.2 =
        sumSize (gf.foldl batchStep (bs, batch, sz)).2.1 ∧
      sumSize (gf.foldl batchStep (bs, batch, sz)).2.1 ≤ MAX_CHARS_PER_BATCH ∧
      (∀ f ∈ (gf.foldl batchStep (bs, batch, sz)).2.1, S f) := by
  intro gf
  induction gf with
  | nil =>
    intro bs batch sz h1 h2 hQ hbS _
    exact ⟨hQ, h1, h2, hbS⟩
  | cons f gf ih =>
    intro bs batch sz h1 h2 hQ hbS hgf
    have hSf : S f := hgf f (List.mem_cons_self f gf)
    have hgf' : ∀ x ∈ gf, S x := fun x hx => hgf x (List.mem_cons_of_mem f hx)
    rw [List.foldl_cons]
    by_cases hc1 : MAX_CHARS_PER_BATCH < sz + fileSize f ∧ batch ≠ []
    · by_cases hc2 : MAX_CHARS_PER_BATCH < fileSize f
      · have hstep : batchStep (bs, batch, sz) f = (bs ++ [batch] ++ [[f]], [], 0) := by
          simp [batchStep, hc1, hc2]
        rw [hstep]
        refine ih (bs ++ [batch] ++ [[f]]) [] 0 (by simp [sumSize])
          (by simp [sumSize, MAX_CHARS_PER_BATCH]) ?_ (by simp) hgf'
        intro b hb
        rcases List.mem_append.mp hb with hb | hb
        · rcases List.mem_append.mp hb with hb | hb
          · exact hQ b hb
          · rw [List.mem_singleton.mp hb]
            exact hQnew batch ⟨hc1.2, Or.inl h2⟩ hbS
        · rw [List.mem_singleton.mp hb]
          exact hQnew [f] ⟨by simp, Or.inr ⟨f, rfl, hc2⟩⟩ (by simpa using hSf)
      · have hstep : batchStep (bs, batch, sz) f = (bs ++ [batch], [f], fileSize f) := by
          simp [batchStep, hc1, hc2]
        rw [hstep]
        refine ih (bs ++ [batch]) [f] (fileSize f) (by simp [sumSize])
          (by simp [sumSize]; omega) ?_ (by simpa using hSf) hgf'
        intro b hb
        rcases List.mem_append.mp hb with hb | hb
        · exact hQ b hb
        · rw [List.mem_singleton.mp hb]
          exact hQnew batch ⟨hc1.2, Or.inl h2⟩ hbS
    · by_cases hc2 : MAX_CHARS_PER_BATCH < fileSize f
      · by_cases hb0 : batch = []
        · subst hb0
          have hsz0 : sz = 0 := by simpa [sumSize] using h1
          subst hsz0
          have hstep : batchStep (bs, [], 0) f = (bs ++ [[f]], [], 0) := by
            simp [batchStep, hc2]
          rw [hstep]
          refine ih (bs ++ [[f]]) [] 0 (by simp [sumSize])
            (by simp [sumSize, MAX_CHARS_PER_BATCH]) ?_ (by simp) hgf'
          intro b hb
          rcases List.mem_append.mp hb with hb | hb
          · exact hQ b hb
          · rw [List.mem_singleton.mp hb]
            exact hQnew [f] ⟨by simp, Or.inr ⟨f, rfl, hc2⟩⟩ (by simpa using hSf)
        · have hstep : batchStep (bs, batch, sz) f = (bs ++ [batch] ++ [[f]], [], 0) := by
            have hc1' : ¬ MAX_CHARS_PER_BATCH < sz + fileSize f := fun hlt => hc1 ⟨hlt, hb0⟩
            simp [batchStep, hc1', hc2, hb0]
          rw [hstep]
          refine ih (bs ++ [batch] ++ [[f]]) [] 0 (by simp [sumSize])
            (by simp [sumSize, MAX_CHARS_PER_BATCH]) ?_ (by simp) hgf'
          intro b hb
          rcases List.mem_append.mp hb with hb | hb
          · rcases List.mem_append.mp hb with hb | hb
            · exact hQ b hb
            · rw [List.mem_singleton.mp hb]
              exact hQnew batch ⟨hb0, Or.inl h2⟩ hbS
          · rw [List.mem_singleton.mp hb]
            exact hQnew [f] ⟨by simp, Or.inr ⟨f, rfl, hc2⟩⟩ (by simpa using hSf)
      · have hstep : batchStep (bs, batch, sz) f = (bs, batch ++ [f], sz + fileSize f) := by
          simp [batchStep, hc1, hc2]
        rw [hstep]
        have hsum : sz + fileSize f = sumSize (batch ++ [f]) := by
          rw [sumSize_append, h1]
          simp [sumSize]
        have hbound : sumSize (batch ++ [f]) ≤ MAX_CHARS_PER_BATCH := by
          rw [← hsum]
          by_cases hb0 : batch = []
          · subst hb0
            have hsz0 : sz = 0 := by simpa [sumSize] using h1
            omega
          · have : ¬ MAX_CHARS_PER_BATCH < sz + fileSize f := fun hlt => hc1 ⟨hlt, hb0⟩
            omega
        refine ih bs (batch ++ [f]) (sz + fileSize f) hsum hbound hQ ?_ hgf'
        intro x hx
        rcases List.mem_append.mp hx with hx | hx
        · exact hbS x hx
        · rw [List.mem_singleton.mp hx]
          exact hSf

/-- Invariant of the outer loop of `_batch_groups`: every accumulated batch is
well formed and drawn from a single category of `Gall`. -/
theorem foldl_batchGroupFold_inv (Gall : List (Str × List BFile)) :
    ∀ suf : List (Str × List BFile), (∀ g ∈ suf, g ∈ Gall) →
    ∀ bs : List (List BFile),
      (∀ b ∈ bs, GoodBatch b ∧ ∃ g ∈ Gall, ∀ f ∈ b, f ∈ g.2) →
      ∀ b ∈ suf.foldl batchGroupFold bs,
        GoodBatch b ∧ ∃ g ∈ Gall, ∀ f ∈ b, f ∈ g.2 := by
  intro suf
  induction suf with
  | nil =>
    intro _ bs hbs b hb
    exact hbs b hb
  | cons g rest ih =>
    intro hsuf bs hbs b hb
    rw [List.foldl_cons] at hb
    refine ih (fun g' hg' => hsuf g' (List.mem_cons_of_mem g hg')) _ ?_ b hb
    intro b' hb'
    simp only [batchGroupFold] at hb'
    split at hb'
    · exact hbs b' hb'
    · have hinner := foldl_batchStep_inv (fun f => f ∈ g.2)
        (fun bb => GoodBatch bb ∧ ∃ g' ∈ Gall, ∀ f ∈ bb, f ∈ g'.2)
        (fun bb hgb hsb => ⟨hgb, ⟨g, hsuf g (List.mem_cons_self g rest), hsb⟩⟩)
        g.2 bs [] 0 (by simp [sumSize]) (by simp [sumSize, MAX_CHARS_PER_BATCH])
        hbs (by simp) (fun f hf => hf)
      split at hb'
      · rcases List.mem_append.mp hb' with h | h
        · exact hinner.1 _ h
        · rw [List.mem_singleton.mp h]
          rename_i hne
          exact ⟨⟨hne, Or.inl hinner.2.2.1⟩,
            ⟨g, hsuf g (List.mem_cons_self g rest), hinner.2.2.2⟩⟩
      · exact hinner.1 _ hb'

/-- Counterexample for C1: one category holding two over-budget files yields
two over-budget singleton batches, not "at most one per category". -/
theorem c1_counterexample :
    _batch_groups [(strL "g", [c1big1, c1big2])] = [[c1big1], [c1big2]] ∧
    MAX_CHARS_PER_BATCH < sumSize [c1big1] ∧
    MAX_CHARS_PER_BATCH < sumSize [c1big2] := by
  have h1 : MAX_CHARS_PER_BATCH < fileSize c1big1 := by
    rw [c1big1_size]
    norm_num [MAX_CHARS_PER_BATCH]
  have h2 : MAX_CHARS_PER_BATCH < fileSize c1big2 := by
    rw [c1big2_size]
    norm_num [MAX_CHARS_PER_BATCH]
  refine ⟨packTwoOversized c1big1 c1big2 (strL "g") h1 h2, ?_, ?_⟩
  · simpa [sumSize] using h1
  · simpa [sumSize] using h2

/-- C1 (amended): every batch the planner produces is non-empty, holds files
of a single grouping category, and either fits the 12000-character budget or
is the singleton batch of a file that alone exceeds the budget — several such
over-budget singletons may occur in one category. -/
theorem c1_batch_invariants (groups : List (Str × List BFile)) :
    ∀ b ∈ _batch_groups groups,
      GoodBatch b ∧ ∃ g ∈ groups, ∀ f ∈ b, f ∈ g.2 :=
  foldl_batchGroupFold_inv groups groups (fun _ h => h) [] (by simp)

/-- Witness for C1: the single batch of a concrete one-category grouping is
well formed and drawn from that category. -/
theorem c1_batch_invariants_witness :
    GoodBatch [c1wf] ∧ ∃ g ∈ c1wGroups, ∀ f ∈ [c1wf], f ∈ g.2 :=
  c1_batch_invariants c1wGroups [c1wf] (by decide)

/-- A successful first-occurrence split reassembles to the original line. -/
theorem splitOnce_some (sep : Str) :
    ∀ l pre post : Str, splitOnce sep l = some (pre, post) → l = pre ++ sep ++ post := by
  intro l
  induction l with
  | nil =>
    intro pre post h
    exact Option.noConfusion h
  | cons c rest ih =>
    intro pre post h
    rw [splitOnce] at h
    split at h
    · rename_i hp
      obtain ⟨t, ht⟩ := hp
      simp only [Option.some.injEq, Prod.mk.injEq] at h
      obtain ⟨hpre, hpost⟩ := h
      subst hpre
      subst hpost
      rw [← ht, List.drop_left]
      simp
    · rename_i hp
      cases hr : splitOnce sep rest with
      | none =>
        rw [hr] at h
        exact Option.noConfusion h
      | some pq =>
        obtain ⟨p, q⟩ := pq
        rw [hr] at h
        simp only [Option.some.injEq, Prod.mk.injEq] at h
        obtain ⟨hpre, hpost⟩ := h
        subst hpre
        subst hpost
        rw [ih p q hr]
        simp

/-- When the split finds nothing, the separator is not a substring. -/
theorem splitOnce_none (sep : Str) (hsep : sep ≠ []) :
    ∀ l : Str, splitOnce sep l = none → ¬ sep <:+: l := by
  intro l
  induction l with
  | nil =>
    intro _ hinf
    exact hsep (List.infix_nil.mp hinf)
  | cons c rest ih =>
    intro h hinf
    rw [splitOnce] at h
    split at h
    · exact Option.noConfusion h
    · rename_i hp
      cases hr : splitOnce sep rest with
      | some pq =>
        rw [hr] at h
        exact Option.noConfusion h
      | none =>
        rcases List.infix_cons_iff.mp hinf with hpre | hinf'
        · exact hp hpre
        · exact ih hr hinf'

/-- Python's `strip` returns a substring of its input. -/
theorem trimChars_infix (l : Str) : trimChars l <:+: l := by
  have h1 : l.dropWhile Char.isWhitespace <:+ l := List.dropWhile_suffix _
  have h3 : (l.dropWhile Char.isWhitespace).reverse.dropWhile Char.isWhitespace <:+
      (l.dropWhile Char.isWhitespace).reverse := List.dropWhile_suffix _
  have h4 := List.reverse_prefix.mpr h3
  rw [List.reverse_reverse] at h4
  exact (h4.isInfix).trans h1.isInfix

/-- Every line passes the low-count filter of its own message. -/
theorem keepCond_self (l : Str) : keepCond (msgOf l) l = true := by
  cases hs : splitOnce sepStr l with
  | some pq =>
    obtain ⟨pre, post⟩ := pq
    have hl := splitOnce_some sepStr l pre post hs
    have hinf : sepStr ++ post <:+: l := by
      rw [hl]
      exact ⟨pre, [], by simp⟩
    simp [keepCond, msgOf, hs, containsSub, hinf]
  | none =>
    have h1 : trimChars l <:+: l := trimChars_infix l
    have h2 : ¬ sepStr <:+: l := splitOnce_none sepStr (by decide) l hs
    simp [keepCond, msgOf, hs, containsSub, h1, h2]

/-- Membership through the first-seen key accumulator. -/
theorem mem_firstSeenAux (x : Str) :
    ∀ ms acc : List Str, x ∈ firstSeenAux ms acc ↔ x ∈ ms ∨ x ∈ acc := by
  intro ms
  induction ms with
  | nil =>
    intro acc
    simp [firstSeenAux]
  | cons m ms ih =>
    intro acc
    rw [firstSeenAux]
    split
    · rename_i hmem
      have hm : m ∈ acc := by simpa using hmem
      rw [ih]
      simp only [List.mem_cons]
      constructor
      · rintro (h | h)
        · exact Or.inl (Or.inr h)
        · exact Or.inr h
      · rintro (h | h)
        · rcases h with rfl | h
          · exact Or.inr hm
          · exact Or.inl h
        · exact Or.inr h
    · rw [ih]
      simp only [List.mem_cons]
      tauto

/-- A message of some line is a key of the counter. -/
theorem mem_msgKeys (lines : List Str) (x : Str) :
    x ∈ msgKeys lines ↔ x ∈ lines.map msgOf := by
  rw [msgKeys, mem_firstSeenAux]
  simp

/-- `most_common()` permutes the keys, so membership is unchanged. -/
theorem mem_mostCommonKeys (lines : List Str) (x : Str) :
    x ∈ mostCommonKeys lines ↔ x ∈ msgKeys lines :=
  (List.perm_insertionSort _ _).mem_iff

/-- The counter's value is the number of lines carrying the message. -/
theorem countMsg_eq_length_filter (lines : List Str) (m : Str) :
    countMsg lines m = (lines.filter fun l => msgOf l == m).length := by
  rw [countMsg, List.count_eq_countP, List.countP_map, List.countP_eq_length_filter]
  rfl

/-- When a message's count is within the threshold and its filter matches only
its own lines, its emission block is exactly its individual lines. -/
theorem emitFor_eq_filter (lines : List Str) (m : Str)
    (H : ∀ l ∈ lines, keepCond m l = true → msgOf l = m)
    (hc : countMsg lines m ≤ DEDUP_THRESHOLD) :
    emitFor lines m = lines.filter fun l => msgOf l == m := by
  rw [emitFor, if_neg (by omega)]
  apply List.filter_congr
  intro l hl
  cases hkc : keepCond m l with
  | true =>
    have he := H l hl hkc
    simp [he]
  | false =>
    have hne : msgOf l ≠ m := by
      intro he
      rw [← he] at hkc
      rw [keepCond_self l] at hkc
      exact Bool.noConfusion hkc
    simp [hne]

/-- The first-seen accumulator never repeats a key. -/
theorem nodup_firstSeenAux :
    ∀ ms acc : List Str, acc.Nodup → (firstSeenAux ms acc).Nodup := by
  intro ms
  induction ms with
  | nil =>
    intro acc hacc
    rw [firstSeenAux]
    exact List.nodup_reverse.mpr hacc
  | cons m ms ih =>
    intro acc hacc
    rw [firstSeenAux]
    split
    · exact ih acc hacc
    · rename_i hmem
      refine ih (m :: acc) (List.nodup_cons.mpr ⟨?_, hacc⟩)
      intro hin
      exact hmem (by simpa using hin)

/-- The counter's keys are pairwise distinct. -/
theorem nodup_msgKeys (lines : List Str) : (msgKeys lines).Nodup :=
  nodup_firstSeenAux _ [] (by simp)

/-- Filtering a list by each key of a duplicate-free key list that covers all
its messages, then concatenating the blocks, permutes the list. -/
theorem flatten_filter_perm :
    ∀ keys ls : List Str, keys.Nodup → (∀ l ∈ ls, msgOf l ∈ keys) →
      ((keys.map fun m => ls.filter fun l => msgOf l == m).flatten).Perm ls := by
  intro keys
  induction keys with
  | nil =>
    intro ls _ hcov
    have hnil : ls = [] :=
      List.eq_nil_iff_forall_not_mem.mpr fun l hl => by simpa using hcov l hl
    subst hnil
    simp
  | cons k keys ih =>
    intro ls hnd hcov
    have hnd' := List.nodup_cons.mp hnd
    have hmapeq : (keys.map fun m => ls.filter fun l => msgOf l == m)
        = keys.map fun m =>
            (ls.filter fun l => !(msgOf l == k)).filter fun l => msgOf l == m := by
      apply List.map_congr_left
      intro m hmk
      rw [List.filter_filter]
      apply List.filter_congr
      intro l _
      by_cases hme : msgOf l = m
      · have hmk' : m ≠ k := fun he => hnd'.1 (he ▸ hmk)
        have hkne : msgOf l ≠ k := by
          rw [hme]
          exact hmk'
        simp [hme, hkne, hmk']
      · simp [hme]
    have hcov' : ∀ l ∈ ls.filter fun l => !(msgOf l == k), msgOf l ∈ keys := by
      intro l hl
      obtain ⟨hls, hnk⟩ := List.mem_filter.mp hl
      rcases List.mem_cons.mp (hcov l hls) with he | hk
      · rw [he] at hnk
        simp at hnk
      · exact hk
    have hperm' := ih (ls.filter fun l => !(msgOf l == k)) hnd'.2 hcov'
    rw [List.map_cons, List.flatten_cons, hmapeq]
    exact (List.Perm.append_left _ hperm').trans
      (List.filter_append_perm (fun l => msgOf l == k) ls)

/-- Counterexample for C3: in `c3badLines` the message `z — a` occurs eleven
times (over the threshold), the line at location `l4` is none of its three
examples, yet that line still appears in the compressed output (it matches the
low-count filter of the one-occurrence message `a`), so the remaining
locations of a collapsed message are not dropped. -/
theorem c3_counterexample :
    DEDUP_THRESHOLD < countMsg c3badLines (strL "z — a") ∧
    strL "  l4 — z — a" ∈ c3badLines ∧
    msgOf (strL "  l4 — z — a") = strL "z — a" ∧
    locOf (strL "  l4 — z — a") ∉ examplesFor c3badLines (strL "z — a") ∧
    strL "  l4 — z — a" ∈ compressLines c3badLines := by
  decide

/-- C3 (amended): a message occurring at most 10 times is never collapsed —
its emission block is exactly its individual lines, unmodified — and each such
line appears in the output; a message occurring 11 or more times is collapsed
to the `[Nx]` summary line plus one example line carrying `min 3 N` example
locations, and its individual lines appear in no low-count block — provided no
message's filter pattern matches another message's lines (the counterexample's
leak). -/
theorem c3_dedup_blocks (lines : List Str)
    (H : ∀ m ∈ msgKeys lines, ∀ l ∈ lines, keepCond m l = true → msgOf l = m) :
    (∀ m ∈ msgKeys lines, countMsg lines m ≤ DEDUP_THRESHOLD →
      emitFor lines m = lines.filter fun l => msgOf l == m) ∧
    (∀ l ∈ lines, countMsg lines (msgOf l) ≤ DEDUP_THRESHOLD → l ∈ compressLines lines) ∧
    (∀ m, DEDUP_THRESHOLD < countMsg lines m →
      emitFor lines m = [summaryLine lines m, egLine lines m] ∧
      (examplesFor lines m).length = min 3 (countMsg lines m)) ∧
    (∀ l ∈ lines, DEDUP_THRESHOLD < countMsg lines (msgOf l) →
      ∀ m ∈ msgKeys lines, countMsg lines m ≤ DEDUP_THRESHOLD →
        l ∉ emitFor lines m) := by
  refine ⟨?_, ?_, ?_, ?_⟩
  · intro m hm hc
    exact emitFor_eq_filter lines m (H m hm) hc
  · intro l hl hc
    rw [compressLines]
    refine List.mem_flatten.mpr ⟨emitFor lines (msgOf l), List.mem_map_of_mem _ ?_, ?_⟩
    · exact (mem_mostCommonKeys lines (msgOf l)).mpr
        ((mem_msgKeys lines (msgOf l)).mpr (List.mem_map_of_mem msgOf hl))
    · rw [emitFor, if_neg (by omega)]
      exact List.mem_filter.mpr ⟨hl, keepCond_self l⟩
  · intro m hc
    refine ⟨by rw [emitFor, if_pos hc], ?_⟩
    rw [examplesFor, List.length_take, List.length_map, ← countMsg_eq_length_filter]
  · intro l hl hcl m hm hcm hmem
    rw [emitFor, if_neg (by omega)] at hmem
    have hk := (List.mem_filter.mp hmem).2
    have he := H m hm l hl hk
    rw [he] at hcl
    omega

/-- Witness for C3: on a concrete cross-match-free input, the block of the
low-count message `ping` is exactly its individual lines. -/
theorem c3_dedup_blocks_witness :
    emitFor c3okLines (strL "ping") = c3okLines.filter fun l => msgOf l == strL "ping" :=
  (c3_dedup_blocks c3okLines (by decide)).1 (strL "ping") (by decide) (by decide)

/-- Counterexample for C8: compressing the already-collapsed output of
`c8twoLines` changes it — the two kept `zap` lines (count 2) move ahead of the
count-1 summary lines, so the compressor is not idempotent. -/
theorem c8_counterexample :
    compressLines (compressLines c8twoLines) ≠ compressLines c8twoLines := by
  decide

/-- C8 (amended): the compressor is not idempotent — a second pass can reorder
blocks, and can even re-collapse a summary line when other lines carry the
summary's text as their message.  What does hold: on any line list (an
already-collapsed output included) whose messages all occur at most 10 times
and whose messages' filter patterns match no other message's lines, a further
compression pass emits exactly the same lines as a permutation — nothing is
collapsed, dropped or duplicated; and on the collapsed output of a single
over-threshold message the second pass returns its input unchanged. -/
theorem c8_recompress_blocks (ls : List Str)
    (H : ∀ m ∈ msgKeys ls, ∀ l ∈ ls, keepCond m l = true → msgOf l = m)
    (Hc : ∀ m ∈ msgKeys ls, countMsg ls m ≤ DEDUP_THRESHOLD) :
    (compressLines ls).Perm ls ∧
    compressLines (compressLines c8oneLines) = compressLines c8oneLines := by
  constructor
  · rw [compressLines]
    have hmapeq : (mostCommonKeys ls).map (emitFor ls)
        = (mostCommonKeys ls).map fun m => ls.filter fun l => msgOf l == m := by
      apply List.map_congr_left
      intro m hmk
      have hm : m ∈ msgKeys ls := (mem_mostCommonKeys ls m).mp hmk
      exact emitFor_eq_filter ls m (H m hm) (Hc m hm)
    rw [hmapeq]
    have hnd : (mostCommonKeys ls).Nodup :=
      (List.perm_insertionSort _ _).nodup_iff.mpr (nodup_msgKeys ls)
    have hcov : ∀ l ∈ ls, msgOf l ∈ mostCommonKeys ls := fun l hl =>
      (mem_mostCommonKeys ls (msgOf l)).mpr
        ((mem_msgKeys ls (msgOf l)).mpr (List.mem_map_of_mem msgOf hl))
    exact flatten_filter_perm (mostCommonKeys ls) ls hnd hcov
  · decide

/-- Witness for C8: the collapsed output of eleven same-message lines meets
both hypotheses, so its re-compression is a permutation of it — and in fact
equals it. -/
theorem c8_recompress_blocks_witness :
    (compressLines (compressLines c8oneLines)).Perm (compressLines c8oneLines) ∧
    compressLines (compressLines c8oneLines) = compressLines c8oneLines :=
  c8_recompress_blocks (compressLines c8oneLines) (by decide) (by decide)
